import Mathlib

/-!
Shallow embedding of the ivanvercel gallery server
(`src/server/storage.ts`, `src/server/routes.ts`, `src/shared/schema.ts`).

The relational store is modelled as lists of typed rows inside `ServerState`;
the managed object store (Supabase bucket) is a list of blob paths plus an
explicit log of removal attempts issued by each route.  Blob-store calls are
the only fallible effects the claims mention, so routes that issue them take
a boolean `removeOk` describing whether the attempts succeed; relational
operations are modelled as reliable state transitions.  JS `||` / `??`
defaulting is modelled explicitly on `Option` values.
-/

namespace Ivan

/-- A row of the `artworks` table / the `Artwork` domain type of
`src/shared/schema.ts` (camelCase mapping of `DatabaseStorage.mapArtwork`). -/
structure Artwork where
  id : Nat
  title : String
  imageUrl : String
  dimensions : String
  technique : String
  year : String
  description : String
  category : Option String
  additionalImages : Option (List String)
  isVisible : Option Bool
  showInSlider : Option Bool
  order : Int
deriving Repr, DecidableEq

/-- An entry of the `gallery_images` list of an exhibition: url plus caption. -/
structure GalleryImage where
  url : String
  caption : String
deriving Repr, DecidableEq

/-- A row of the `exhibitions` table / the `Exhibition` domain type. -/
structure Exhibition where
  id : Nat
  title : String
  location : String
  year : String
  imageUrl : String
  description : String
  theme : Option String
  galleryImages : Option (List GalleryImage)
  videoUrl : Option String
  order : Int
deriving Repr, DecidableEq

/-- The `FeaturedWork` record of `src/server/storage.ts`. -/
structure FeaturedWork where
  id : Nat
  imageUrl : String
  title : String
  description : Option String
  year : Option String
  technique : Option String
deriving Repr, DecidableEq

/-- A `Partial<FeaturedWork>` patch: every field optional; an absent field
leaves the stored field unchanged under the spread `{ ...works[idx], ...data }`. -/
structure FeaturedWorkPatch where
  id : Option Nat := none
  imageUrl : Option String := none
  title : Option String := none
  description : Option String := none
  year : Option String := none
  technique : Option String := none
deriving Repr, DecidableEq

/-- The `session.adminUser` object stored at login. -/
structure AdminUser where
  username : String
deriving Repr, DecidableEq

/-- Session state attached to a request (`req.session`).  A request with no
session at all is `none` at the use site; a "malformed" session is one whose
`adminUser` object is missing (`adminUser = none`). -/
structure SessionState where
  isAdmin : Bool
  adminUser : Option AdminUser
deriving Repr, DecidableEq

/-- An HTTP response: status code plus the short machine-readable reason
string of the JSON body. -/
structure Response where
  status : Nat
  body : String
deriving Repr, DecidableEq

/-- Server-side state: the relational tables plus the typed contents of the
`site_settings` keys the claims touch (`featured_works`,
`featured_works_order`), plus the set of blob paths in the managed bucket. -/
structure ServerState where
  artworks : List Artwork
  exhibitions : List Exhibition
  featuredWorks : List FeaturedWork
  featuredWorksOrder : List Nat
  bucket : List String
deriving Repr, DecidableEq

/-- Insert payload for `createArtwork` (the zod-validated `mappedData` of
`POST /api/artworks`; optional columns are `Option`). -/
structure InsertArtwork where
  title : String
  image_url : String
  dimensions : String
  technique : String
  year : String
  description : String
  category : Option String := none
  additional_images : Option (List String) := none
  is_visible : Option Bool := none
  show_in_slider : Option Bool := none
  order : Option Int := none
deriving Repr, DecidableEq

/-- JS `v || d` on an optional string: `null`/`undefined` and the empty
string are falsy, any other string is kept. -/
def jsOrString (v : Option String) (d : String) : String :=
  match v with
  | none => d
  | some s => if s = "" then d else s

/- ### Storage layer (`DatabaseStorage`) -/

/-- Models `SELECT ... FROM artworks WHERE id = ?` (primary-key lookup: first match). -/
def getArtworkRow (i : Nat) (l : List Artwork) : Option Artwork :=
  l.find? (fun a => a.id == i)

/-- Models `DatabaseStorage.getArtwork`. -/
def getArtwork (i : Nat) (st : ServerState) : Option Artwork :=
  getArtworkRow i st.artworks

/-- Models `DatabaseStorage.getArtworks`: rows with `is_visible = true`, ordered by
ascending `order` (stable sort models `ORDER BY "order" ASC`). -/
def getArtworks (st : ServerState) : List Artwork :=
  (st.artworks.filter (fun a => a.isVisible == some true)).mergeSort
    (fun a b => decide (a.order ≤ b.order))

/-- Models `DatabaseStorage.getExhibition`. -/
def getExhibition (i : Nat) (st : ServerState) : Option Exhibition :=
  st.exhibitions.find? (fun e => e.id == i)

/-- Models `DatabaseStorage.getExhibitions`: all rows ordered by ascending `order`. -/
def getExhibitions (st : ServerState) : List Exhibition :=
  st.exhibitions.mergeSort (fun a b => decide (a.order ≤ b.order))

/-- Models `DatabaseStorage.createArtwork`: applies the JS defaulting
(`category || "Autres"`, `is_visible ?? true`, `show_in_slider ?? true`,
`order ?? 0`, `additional_images || []`) and inserts the row with the fresh
serial id `newId`; returns the mapped created record. -/
def createArtwork (ins : InsertArtwork) (newId : Nat) (st : ServerState) :
    ServerState × Artwork :=
  let a : Artwork :=
    { id := newId
      title := ins.title
      imageUrl := ins.image_url
      dimensions := ins.dimensions
      technique := ins.technique
      year := ins.year
      description := ins.description
      category := some (jsOrString ins.category "Autres")
      additionalImages := some (ins.additional_images.getD [])
      isVisible := some (ins.is_visible.getD true)
      showInSlider := some (ins.show_in_slider.getD true)
      order := ins.order.getD 0 }
  ({ st with artworks := st.artworks ++ [a] }, a)

/-- One `UPDATE artworks SET "order" = ? WHERE id = ?` step. -/
def setArtworkOrder (l : List Artwork) (i : Nat) (o : Int) : List Artwork :=
  l.map (fun a => if a.id = i then { a with order := o } else a)

/-- Models `DatabaseStorage.reorderArtworks`: one independent update per pair, in
submission order. -/
def reorderArtworks (newOrder : List (Nat × Int)) (l : List Artwork) :
    List Artwork :=
  newOrder.foldl (fun acc p => setArtworkOrder acc p.1 p.2) l

/-- One `UPDATE exhibitions SET "order" = ? WHERE id = ?` step. -/
def setExhibitionOrder (l : List Exhibition) (i : Nat) (o : Int) :
    List Exhibition :=
  l.map (fun e => if e.id = i then { e with order := o } else e)

/-- Models `DatabaseStorage.reorderExhibitions`. -/
def reorderExhibitions (newOrder : List (Nat × Int)) (l : List Exhibition) :
    List Exhibition :=
  newOrder.foldl (fun acc p => setExhibitionOrder acc p.1 p.2) l

/-- Models the spread `\x7b ...works[idx], ...data \x7d`: fields present in the patch overwrite. -/
def applyPatch (w : FeaturedWork) (p : FeaturedWorkPatch) : FeaturedWork :=
  { id := p.id.getD w.id
    imageUrl := p.imageUrl.getD w.imageUrl
    title := p.title.getD w.title
    description := match p.description with | some s => some s | none => w.description
    year := match p.year with | some s => some s | none => w.year
    technique := match p.technique with | some s => some s | none => w.technique }

/-- Models `DatabaseStorage.addFeaturedWork`: push the work, then push its id onto
the order list when absent. -/
def addFeaturedWork (w : FeaturedWork) (st : ServerState) : ServerState :=
  { st with
    featuredWorks := st.featuredWorks ++ [w]
    featuredWorksOrder :=
      if st.featuredWorksOrder.contains w.id then st.featuredWorksOrder
      else st.featuredWorksOrder ++ [w.id] }

/-- Models the `findIndex` plus in-place assignment of `DatabaseStorage.updateFeaturedWork`:
replace the first work whose id matches with the patched record. -/
def updateFirstFW (i : Nat) (p : FeaturedWorkPatch) :
    List FeaturedWork → List FeaturedWork
  | [] => []
  | w :: ws => if w.id = i then applyPatch w p :: ws else w :: updateFirstFW i p ws

/-- Models `DatabaseStorage.updateFeaturedWork`. -/
def updateFeaturedWork (i : Nat) (p : FeaturedWorkPatch) (st : ServerState) :
    ServerState :=
  { st with featuredWorks := updateFirstFW i p st.featuredWorks }

/-- Models `DatabaseStorage.deleteFeaturedWork`: filter the id out of both lists. -/
def deleteFeaturedWork (i : Nat) (st : ServerState) : ServerState :=
  { st with
    featuredWorks := st.featuredWorks.filter (fun w => w.id ≠ i)
    featuredWorksOrder := st.featuredWorksOrder.filter (fun x => x ≠ i) }

/- ### Supabase helpers (`src/server/routes.ts`) -/

/-- JS `s.startsWith(pre)`, computed on the character lists. -/
def strStartsWith (s pre : String) : Bool :=
  pre.data.isPrefixOf s.data

/-- The suffix after the first occurrence of `marker` in a character list
(JS `indexOf` + `slice`); `none` when the marker does not occur. -/
def suffixAfter (marker : List Char) : List Char → Option (List Char)
  | [] => if marker.isPrefixOf ([] : List Char) then some [] else none
  | c :: cs =>
    if marker.isPrefixOf (c :: cs) then some ((c :: cs).drop marker.length)
    else suffixAfter marker cs

/-- The public-URL marker `"/storage/v1/object/public/" + bucket + "/"`. -/
def publicUrlMarker (bucket : String) : String :=
  "/storage/v1/object/public/" ++ bucket ++ "/"

/-- Models `extractSupabasePathFromPublicUrl`: `indexOf` the marker; `none`
when absent, otherwise everything after the first occurrence (`slice`). -/
def extractSupabasePathFromPublicUrl (publicUrl bucket : String) :
    Option String :=
  (suffixAfter (publicUrlMarker bucket).data publicUrl.data).map
    (fun cs => String.mk cs)

/-- Models `deleteSupabasePublicFile`: the list of paths passed to
`storage.from(bucket).remove` — empty when the URL carries no marker,
otherwise exactly the one extracted path. -/
def deleteSupabasePublicFile (bucket publicUrl : String) : List String :=
  match extractSupabasePathFromPublicUrl publicUrl bucket with
  | none => []
  | some p => [p]

/-- Effect of one removal attempt on the bucket: the path disappears when the
attempt succeeds, nothing changes when it fails (the route catches and logs). -/
def applyRemove (bucket : List String) (p : String) (ok : Bool) : List String :=
  if ok then bucket.filter (fun q => q ≠ p) else bucket

/-- Apply a sequence of removal attempts to the bucket. -/
def applyRemoves (bucket : List String) (ps : List String) (ok : Bool) :
    List String :=
  ps.foldl (fun b p => applyRemove b p ok) bucket

/- ### Routes (`registerRoutes`) -/

/-- Models the test of `requireAdmin`: it passes exactly when the session exists, its `isAdmin` flag
is set, and its `adminUser.username` is the hard-coded `"ivan"`. -/
def isAuthorized : Option SessionState → Bool
  | some s =>
    s.isAdmin && (match s.adminUser with
                  | some u => u.username == "ivan"
                  | none => false)
  | none => false

/-- The uniform rejection of `requireAdmin`:
`401 {"error":"Accès non autorisé"}`. -/
def authErrorResponse : Response :=
  { status := 401, body := "Accès non autorisé" }

/-- The `requireAdmin` middleware wrapping a gated handler.  A handler maps
state to (state, response, blob-removal attempts). -/
def requireAdmin (sess : Option SessionState)
    (handler : ServerState → ServerState × Response × List String)
    (st : ServerState) : ServerState × Response × List String :=
  if isAuthorized sess then handler st else (st, authErrorResponse, [])

/-- Models `DELETE /api/artworks/:id` (post-gate handler): 404 when the id is
absent; otherwise best-effort blob deletion of the primary image when its URL
starts with `"http"`, then record deletion, then success. -/
def deleteArtworkRoute (bucket : String) (removeOk : Bool) (i : Nat)
    (st : ServerState) : ServerState × Response × List String :=
  match getArtwork i st with
  | none => (st, { status := 404, body := "Artwork not found" }, [])
  | some existing =>
    let attempts :=
      if strStartsWith existing.imageUrl "http" then
        deleteSupabasePublicFile bucket existing.imageUrl
      else []
    ({ st with
        bucket := applyRemoves st.bucket attempts removeOk
        artworks := st.artworks.filter (fun a => a.id ≠ i) },
     { status := 200, body := "success" }, attempts)

/-- Models `DELETE /api/exhibitions/:id` (post-gate handler): when the record
exists, best-effort blob deletion of the primary image and every gallery
image URL starting with `"http"`; then the record is deleted and success is
returned — there is no not-found branch. -/
def deleteExhibitionRoute (bucket : String) (removeOk : Bool) (i : Nat)
    (st : ServerState) : ServerState × Response × List String :=
  let attempts :=
    match getExhibition i st with
    | none => []
    | some ex =>
      (if strStartsWith ex.imageUrl "http" then
        deleteSupabasePublicFile bucket ex.imageUrl
       else []) ++
      (ex.galleryImages.getD []).foldl
        (fun acc gi =>
          acc ++ (if strStartsWith gi.url "http" then
                    deleteSupabasePublicFile bucket gi.url
                  else [])) []
  ({ st with
      bucket := applyRemoves st.bucket attempts removeOk
      exhibitions := st.exhibitions.filter (fun e => e.id ≠ i) },
   { status := 200, body := "success" }, attempts)

/-- Sequence the per-file upload results of the additional-images loop:
`none` as soon as one upload fails, otherwise the URLs in submission order. -/
def uploadAll : List (Option String) → Option (List String)
  | [] => some []
  | some u :: rest => (uploadAll rest).map (fun us => u :: us)
  | none :: _ => none

/-- Models `POST /api/artworks/:id/additional-images` (post-gate handler).
`uploadResults` is the per-file outcome of `uploadBufferToSupabase` for each
submitted file, in submission order.  Checks, in source order: empty batch →
400; more than 3 files → 400; unknown artwork → 404; any upload failure →
500 with no commit; otherwise the full replacement list
`existing ++ new` is persisted. -/
def additionalImagesRoute (i : Nat) (uploadResults : List (Option String))
    (st : ServerState) : ServerState × Response :=
  if uploadResults.length = 0 then
    (st, { status := 400, body := "No images provided" })
  else if uploadResults.length > 3 then
    (st, { status := 400, body := "Maximum 3 additional images allowed" })
  else
    match getArtwork i st with
    | none => (st, { status := 404, body := "Artwork not found" })
    | some existing =>
      match uploadAll uploadResults with
      | none => (st, { status := 500, body := "Failed to upload image" })
      | some urls =>
        let updated := existing.additionalImages.getD [] ++ urls
        ({ st with
            artworks := st.artworks.map (fun a =>
              if a.id = i then { a with additionalImages := some updated } else a) },
         { status := 200, body := "success" })

/-- Models the multer stage `upload.array("images", 3)` of the route, as it
behaves composed with the generic error middleware of
`src/server/index.ts`: a request carrying more than `maxCount = 3` files
makes multer pass a `MulterError("LIMIT_UNEXPECTED_FILE")` to `next`;
that error carries no `status`/`statusCode` field, so the middleware
answers `500` with the message `"Unexpected field"` and the handler never
runs.  At 3 files or fewer the parsed file list is handed to the handler. -/
def uploadArrayImages3
    (uploadResults : List (Option String))
    (handler : List (Option String) → ServerState → ServerState × Response)
    (st : ServerState) : ServerState × Response :=
  if uploadResults.length > 3 then
    (st, { status := 500, body := "Unexpected field" })
  else handler uploadResults st

/-- The full `POST /api/artworks/:id/additional-images` pipeline past the
admin gate: the multer stage feeding the handler. -/
def additionalImagesPipeline (i : Nat) (uploadResults : List (Option String))
    (st : ServerState) : ServerState × Response :=
  uploadArrayImages3 uploadResults (additionalImagesRoute i) st

/-- JS `Set` built by insertion over a list: first occurrence kept, in order. -/
def insertionDedup (l : List String) : List String :=
  l.foldl (fun acc x => if x ∈ acc then acc else acc ++ [x]) []

/-- Models `PUT /api/exhibitions/:id/gallery` (post-gate handler): 404 when the
exhibition is absent; otherwise garbage-collect every previous gallery URL
missing from the new list (best-effort, only URLs starting with `"http"`),
then persist the new gallery. -/
def updateGalleryRoute (bucket : String) (removeOk : Bool) (i : Nat)
    (newGallery : List GalleryImage) (st : ServerState) :
    ServerState × Response × List String :=
  match getExhibition i st with
  | none => (st, { status := 404, body := "Exposition non trouvée" }, [])
  | some existing =>
    let prevUrls :=
      insertionDedup (((existing.galleryImages.getD []).map (fun g => g.url)).filter
        (fun u => u ≠ ""))
    let nextUrls := (newGallery.map (fun g => g.url)).filter (fun u => u ≠ "")
    let removed := prevUrls.filter (fun u => ¬ nextUrls.contains u)
    let attempts :=
      removed.foldl
        (fun acc u =>
          acc ++ (if strStartsWith u "http" then deleteSupabasePublicFile bucket u
                  else [])) []
    ({ st with
        bucket := applyRemoves st.bucket attempts removeOk
        exhibitions := st.exhibitions.map (fun e =>
          if e.id = i then { e with galleryImages := some newGallery } else e) },
     { status := 200, body := "updated" }, attempts)

/-- The featured-works invariant: every id of the `featured_works` setting
also appears in the `featured_works_order` setting. -/
def fwInvariant (st : ServerState) : Prop :=
  ∀ w ∈ st.featuredWorks, w.id ∈ st.featuredWorksOrder

instance (st : ServerState) : Decidable (fwInvariant st) :=
  List.decidableBAll _ _

/-! ### Generic theory of the per-row order rewrite

`reorderArtworks` and `reorderExhibitions` are the same algorithm over two
row types; the lemmas are proved once over an abstract row type with an id
projection `gid`, an order projection `gord` and an order writer `setOrd`. -/

section ReorderGeneric

variable {α : Type} (gid : α → Nat) (setOrd : α → Int → α)

/-- The cumulative effect of the whole update sequence on one row. -/
def applyAllG (σ : List (Nat × Int)) (a : α) : α :=
  σ.foldl (fun b p => if gid b = p.1 then setOrd b p.2 else b) a

/-- The update sequence over the whole table, one `UPDATE` per pair. -/
def reorderG (σ : List (Nat × Int)) (l : List α) : List α :=
  σ.foldl (fun acc p => acc.map (fun b => if gid b = p.1 then setOrd b p.2 else b)) l

theorem applyAllG_cons (p : Nat × Int) (σ : List (Nat × Int)) (a : α) :
    applyAllG gid setOrd (p :: σ) a =
      applyAllG gid setOrd σ (if gid a = p.1 then setOrd a p.2 else a) := rfl

theorem reorderG_eq_map (σ : List (Nat × Int)) (l : List α) :
    reorderG gid setOrd σ l = l.map (applyAllG gid setOrd σ) := by
  induction σ generalizing l with
  | nil =>
    have h : ∀ a ∈ l, a = applyAllG gid setOrd [] a := fun a _ => rfl
    calc reorderG gid setOrd [] l = l := rfl
      _ = l.map (applyAllG gid setOrd []) := by
          rw [List.map_congr_left fun a ha => (h a ha).symm]
          simp
  | cons p σ ih =>
    have hstep : reorderG gid setOrd (p :: σ) l =
        reorderG gid setOrd σ
          (l.map (fun b => if gid b = p.1 then setOrd b p.2 else b)) := rfl
    rw [hstep, ih, List.map_map]
    exact List.map_congr_left fun a _ => rfl

theorem applyAllG_preserves {β : Type} (f : α → β)
    (hf : ∀ a o, f (setOrd a o) = f a) (σ : List (Nat × Int)) (a : α) :
    f (applyAllG gid setOrd σ a) = f a := by
  induction σ generalizing a with
  | nil => rfl
  | cons p σ ih =>
    rw [applyAllG_cons]
    by_cases hp : gid a = p.1
    · rw [if_pos hp, ih, hf]
    · rw [if_neg hp, ih]

theorem applyAllG_of_not_mem (σ : List (Nat × Int)) (a : α)
    (h : gid a ∉ σ.map Prod.fst) : applyAllG gid setOrd σ a = a := by
  induction σ with
  | nil => rfl
  | cons p σ ih =>
    rw [List.map_cons] at h
    simp only [List.mem_cons, not_or] at h
    rw [applyAllG_cons, if_neg h.1]
    exact ih h.2

theorem applyAllG_mem (hgid : ∀ a o, gid (setOrd a o) = gid a)
    (gord : α → Int) (hgord : ∀ a o, gord (setOrd a o) = o)
    (σ : List (Nat × Int)) (a : α) (h : gid a ∈ σ.map Prod.fst) :
    (gid a, gord (applyAllG gid setOrd σ a)) ∈ σ := by
  induction σ generalizing a with
  | nil => simp at h
  | cons p σ ih =>
    rw [List.map_cons] at h
    rw [applyAllG_cons]
    by_cases hp : gid a = p.1
    · rw [if_pos hp]
      by_cases htl : gid a ∈ σ.map Prod.fst
      · have h1 : gid (setOrd a p.2) = gid a := hgid a p.2
        have h2 := ih (setOrd a p.2) (by rw [h1]; exact htl)
        rw [h1] at h2
        exact List.mem_cons_of_mem p h2
      · have h2 : applyAllG gid setOrd σ (setOrd a p.2) = setOrd a p.2 :=
          applyAllG_of_not_mem gid setOrd σ _ (by rw [hgid]; exact htl)

        rw [h2, hgord, hp]
        exact List.mem_cons_self p σ
    · rw [if_neg hp]
      have htl : gid a ∈ σ.map Prod.fst := by
        rcases List.mem_cons.mp h with h1 | h1
        · exact absurd h1 hp
        · exact h1
      exact List.mem_cons_of_mem p (ih a htl)

theorem applyAllG_setOrd (hgid : ∀ a o, gid (setOrd a o) = gid a)
    (hset : ∀ a o o', setOrd (setOrd a o) o' = setOrd a o')
    (σ : List (Nat × Int)) (a : α) (o : Int) (h : gid a ∈ σ.map Prod.fst) :
    applyAllG gid setOrd σ (setOrd a o) = applyAllG gid setOrd σ a := by
  induction σ generalizing a o with
  | nil => simp at h
  | cons p σ ih =>
    rw [List.map_cons] at h
    rw [applyAllG_cons, applyAllG_cons]
    by_cases hp : gid a = p.1
    · rw [if_pos (by rw [hgid]; exact hp), if_pos hp, hset]
    · have htl : gid a ∈ σ.map Prod.fst := by
        rcases List.mem_cons.mp h with h1 | h1
        · exact absurd h1 hp
        · exact h1
      rw [if_neg (by rw [hgid]; exact hp), if_neg hp]
      exact ih a o htl

theorem applyAllG_shape (hset : ∀ a o o', setOrd (setOrd a o) o' = setOrd a o')
    (σ : List (Nat × Int)) (a : α) :
    applyAllG gid setOrd σ a = a ∨ ∃ o, applyAllG gid setOrd σ a = setOrd a o := by
  induction σ generalizing a with
  | nil => exact Or.inl rfl
  | cons p σ ih =>
    rw [applyAllG_cons]
    by_cases hp : gid a = p.1
    · rw [if_pos hp]
      rcases ih (setOrd a p.2) with h | ⟨o, h⟩
      · exact Or.inr ⟨p.2, h⟩
      · exact Or.inr ⟨o, by rw [h, hset]⟩
    · rw [if_neg hp]
      exact ih a

theorem applyAllG_idem (hgid : ∀ a o, gid (setOrd a o) = gid a)
    (hset : ∀ a o o', setOrd (setOrd a o) o' = setOrd a o')
    (σ : List (Nat × Int)) (a : α) :
    applyAllG gid setOrd σ (applyAllG gid setOrd σ a) =
      applyAllG gid setOrd σ a := by
  by_cases h : gid a ∈ σ.map Prod.fst
  · rcases applyAllG_shape gid setOrd hset σ a with hs | ⟨o, hs⟩
    · rw [hs]
      exact hs
    · calc applyAllG gid setOrd σ (applyAllG gid setOrd σ a)
          = applyAllG gid setOrd σ (setOrd a o) := by rw [hs]
        _ = applyAllG gid setOrd σ a := applyAllG_setOrd gid setOrd hgid hset σ a o h
  · rw [applyAllG_of_not_mem gid setOrd σ a h, applyAllG_of_not_mem gid setOrd σ a h]

theorem reorderG_idem (hgid : ∀ a o, gid (setOrd a o) = gid a)
    (hset : ∀ a o o', setOrd (setOrd a o) o' = setOrd a o')
    (σ : List (Nat × Int)) (l : List α) :
    reorderG gid setOrd σ (reorderG gid setOrd σ l) = reorderG gid setOrd σ l := by
  rw [reorderG_eq_map, reorderG_eq_map, List.map_map]
  exact List.map_congr_left fun a _ => applyAllG_idem gid setOrd hgid hset σ a

/-- The read-back specification of a full reorder: after assigning distinct
orders to every row, the filtered, sorted read is strictly increasing in the
stored order, every returned row carries exactly its submitted `(id, order)`
pair, and its id sequence is a permutation of the ids of the filtered table. -/
theorem reorderG_sort_spec (hgid : ∀ a o, gid (setOrd a o) = gid a)
    (gord : α → Int) (hgord : ∀ a o, gord (setOrd a o) = o)
    (vis : α → Bool) (hvis : ∀ a o, vis (setOrd a o) = vis a)
    (σ : List (Nat × Int)) (l : List α)
    (hids : (l.map gid).Nodup)
    (hcover : ∀ a ∈ l, gid a ∈ σ.map Prod.fst)
    (hσord : (σ.map Prod.snd).Nodup) :
    (((reorderG gid setOrd σ l).filter vis).mergeSort
        (fun a b => decide (gord a ≤ gord b))).Pairwise
        (fun a b => gord a < gord b) ∧
    (∀ a ∈ ((reorderG gid setOrd σ l).filter vis).mergeSort
        (fun a b => decide (gord a ≤ gord b)), (gid a, gord a) ∈ σ) ∧
    ((((reorderG gid setOrd σ l).filter vis).mergeSort
        (fun a b => decide (gord a ≤ gord b))).map gid).Perm
      ((l.filter vis).map gid) := by
  have hmap : reorderG gid setOrd σ l = l.map (applyAllG gid setOrd σ) :=
    reorderG_eq_map gid setOrd σ l
  have hfilter : (reorderG gid setOrd σ l).filter vis =
      (l.filter vis).map (applyAllG gid setOrd σ) := by
    rw [hmap, List.filter_map]
    congr 1
    exact List.filter_congr fun a _ => by
      simp [Function.comp, applyAllG_preserves gid setOrd vis hvis σ a]
  set base := l.filter vis with hbase
  set result := ((reorderG gid setOrd σ l).filter vis).mergeSort
      (fun a b => decide (gord a ≤ gord b)) with hresult
  have hperm : result.Perm (base.map (applyAllG gid setOrd σ)) := by
    rw [hresult, hfilter]
    exact List.mergeSort_perm _ _
  have hgid_apply : ∀ a, gid (applyAllG gid setOrd σ a) = gid a :=
    fun a => applyAllG_preserves gid setOrd gid hgid σ a
  have hbase_sub : base.Sublist l := List.filter_sublist l
  -- every returned row carries its submitted pair
  have hmem : ∀ a ∈ result, (gid a, gord a) ∈ σ := by
    intro a ha
    have ha' : a ∈ base.map (applyAllG gid setOrd σ) := hperm.mem_iff.mp ha
    rcases List.mem_map.mp ha' with ⟨a₀, ha₀, rfl⟩
    have ha₀l : a₀ ∈ l := hbase_sub.mem ha₀
    have := applyAllG_mem gid setOrd hgid gord hgord σ a₀ (hcover a₀ ha₀l)
    rwa [← hgid_apply a₀] at this
  refine ⟨?_, hmem, ?_⟩
  · -- strict sortedness
    have htrans : ∀ a b c : α, decide (gord a ≤ gord b) → decide (gord b ≤ gord c) →
        decide (gord a ≤ gord c) := by
      intro a b c hab hbc
      simp only [decide_eq_true_iff] at hab hbc ⊢
      exact le_trans hab hbc
    have htotal : ∀ a b : α, decide (gord a ≤ gord b) || decide (gord b ≤ gord a) := by
      intro a b
      rcases le_total (gord a) (gord b) with h | h <;> simp [h]
    have hle : result.Pairwise (fun a b => gord a ≤ gord b) := by
      have := List.sorted_mergeSort htrans htotal
        ((reorderG gid setOrd σ l).filter vis)
      exact this.imp (fun h => by simpa using h)
    have hne : result.Pairwise (fun a b => gord a ≠ gord b) := by
      have hsymm : ∀ {x y : α}, gord x ≠ gord y → gord y ≠ gord x :=
        fun h => Ne.symm h
      rw [hperm.pairwise_iff hsymm]
      rw [List.pairwise_map]
      have hl_ne : l.Pairwise (fun a b => gid a ≠ gid b) :=
        List.pairwise_map.mp hids
      refine (hl_ne.sublist hbase_sub).imp_of_mem ?_
      intro a b ha hb hne heq
      have ha' := applyAllG_mem gid setOrd hgid gord hgord σ a
        (hcover a (hbase_sub.mem ha))
      have hb' := applyAllG_mem gid setOrd hgid gord hgord σ b
        (hcover b (hbase_sub.mem hb))
      rw [heq] at ha'
      have := List.inj_on_of_nodup_map hσord ha' hb' rfl
      exact hne (congrArg Prod.fst this)
    exact (hle.and hne).imp fun h => lt_of_le_of_ne h.1 h.2
  · -- id sequence is a permutation of the ids of the filtered table
    have h1 : result.map gid |>.Perm ((base.map (applyAllG gid setOrd σ)).map gid) :=
      hperm.map gid
    have h2 : (base.map (applyAllG gid setOrd σ)).map gid = base.map gid := by
      rw [List.map_map]
      exact List.map_congr_left fun a _ => hgid_apply a
    rw [h2] at h1
    exact h1

end ReorderGeneric

/-! ### Small list helpers -/

theorem find?_filter_ne_id_exh (l : List Exhibition) (i : Nat) :
    (l.filter (fun e => e.id ≠ i)).find? (fun e => e.id == i) = none := by
  apply List.find?_eq_none.mpr
  intro x hx
  have hx' := List.of_mem_filter hx
  simp only [decide_eq_true_eq] at hx'
  simp [hx']

theorem filter_ne_of_find?_none (l : List Exhibition) (i : Nat)
    (h : l.find? (fun e => e.id == i) = none) :
    l.filter (fun e => e.id ≠ i) = l := by
  apply List.filter_eq_self.mpr
  intro x hx
  have := List.find?_eq_none.mp h x hx
  simp only [beq_iff_eq] at this
  simp [this]

theorem foldl_append_of_all_nil {γ : Type} (f : γ → List String) (l : List γ)
    (h : ∀ u ∈ l, f u = []) :
    ∀ acc, l.foldl (fun acc u => acc ++ f u) acc = acc := by
  induction l with
  | nil => intro acc; rfl
  | cons u l ih =>
    intro acc
    have hu : f u = [] := h u (List.mem_cons_self u l)
    rw [List.foldl_cons, hu, List.append_nil]
    exact ih (fun v hv => h v (List.mem_cons_of_mem u hv)) acc

theorem mem_insertionDedup_aux (l : List String) :
    ∀ acc x, x ∈ l.foldl (fun acc y => if y ∈ acc then acc else acc ++ [y]) acc →
      x ∈ acc ∨ x ∈ l := by
  induction l with
  | nil => intro acc x hx; exact Or.inl hx
  | cons y l ih =>
    intro acc x hx
    rw [List.foldl_cons] at hx
    rcases ih _ x hx with h | h
    · by_cases hy : y ∈ acc
      · rw [if_pos hy] at h; exact Or.inl h
      · rw [if_neg hy] at h
        rcases List.mem_append.mp h with h1 | h1
        · exact Or.inl h1
        · simp only [List.mem_singleton] at h1
          exact Or.inr (h1 ▸ List.mem_cons_self y l)
    · exact Or.inr (List.mem_cons_of_mem y h)

theorem mem_insertionDedup (l : List String) (x : String)
    (hx : x ∈ insertionDedup l) : x ∈ l := by
  rcases mem_insertionDedup_aux l [] x hx with h | h
  · simp at h
  · exact h

/-- Membership in the first-match update of the featured-works list: every
element is either an untouched original or the patch applied to an original
whose id matched. -/
theorem mem_updateFirstFW (i : Nat) (p : FeaturedWorkPatch) (l : List FeaturedWork)
    (x : FeaturedWork) (hx : x ∈ updateFirstFW i p l) :
    x ∈ l ∨ ∃ w ∈ l, w.id = i ∧ x = applyPatch w p := by
  induction l with
  | nil => simp [updateFirstFW] at hx
  | cons w l ih =>
    rw [updateFirstFW] at hx
    by_cases hw : w.id = i
    · rw [if_pos hw] at hx
      rcases List.mem_cons.mp hx with h | h
      · exact Or.inr ⟨w, List.mem_cons_self w l, hw, h⟩
      · exact Or.inl (List.mem_cons_of_mem w h)
    · rw [if_neg hw] at hx
      rcases List.mem_cons.mp hx with h | h
      · exact Or.inl (h ▸ List.mem_cons_self w l)
      · rcases ih h with h1 | ⟨w₀, hw₀, hid, hxeq⟩
        · exact Or.inl (List.mem_cons_of_mem w h1)
        · exact Or.inr ⟨w₀, List.mem_cons_of_mem w hw₀, hid, hxeq⟩

/-- Running `find?` over a map that rewrites exactly the rows with the matched id:
the first hit is the rewritten first hit of the original table. -/
theorem find?_map_update (l : List Artwork) (i : Nat) (a : Artwork)
    (g : Artwork → Artwork) (hg : ∀ x, (g x).id = x.id)
    (ha : l.find? (fun x => x.id == i) = some a) :
    (l.map (fun x => if x.id = i then g x else x)).find? (fun x => x.id == i) =
      some (g a) := by
  induction l with
  | nil => simp at ha
  | cons x l ih =>
    rw [List.map_cons]
    by_cases hx : x.id = i
    · rw [List.find?_cons_of_pos _ (by simp [hx])] at ha
      rw [if_pos hx]
      rw [List.find?_cons_of_pos _ (by simp [hg, hx])]
      injection ha with ha
      rw [ha]
    · rw [List.find?_cons_of_neg _ (by simp [hx])] at ha
      rw [if_neg hx]
      rw [List.find?_cons_of_neg _ (by simp [hx])]
      exact ih ha

/-! ### Concrete fixtures used by witnesses -/

/-- An empty server state. -/
def stEmpty : ServerState :=
  { artworks := [], exhibitions := [], featuredWorks := [],
    featuredWorksOrder := [], bucket := [] }

/-- A sample exhibition with id 1 and an external image URL. -/
def exh1 : Exhibition :=
  { id := 1, title := "t", location := "l", year := "2024",
    imageUrl := "https://x/img.jpg", description := "d", theme := none,
    galleryImages := some [], videoUrl := none, order := 0 }

/-- A state holding only `exh1`. -/
def stExh1 : ServerState :=
  { artworks := [], exhibitions := [exh1], featuredWorks := [],
    featuredWorksOrder := [], bucket := [] }

/-- A sample artwork with id 1, visible, no supplementary images. -/
def art1 : Artwork :=
  { id := 1, title := "t", imageUrl := "https://x/i.jpg", dimensions := "d",
    technique := "te", year := "2024", description := "de",
    category := some "Autres", additionalImages := some [],
    isVisible := some true, showInSlider := some true, order := 0 }

/-- A state holding only `art1`. -/
def stArt1 : ServerState :=
  { artworks := [art1], exhibitions := [], featuredWorks := [],
    featuredWorksOrder := [], bucket := [] }

/-- A sample insert payload with a blank category. -/
def insBlankCat : InsertArtwork :=
  { title := "t", image_url := "https://x/i.jpg", dimensions := "d",
    technique := "te", year := "2024", description := "de",
    category := some "" }

/-! ### Claim theorems -/

/-- C2: whether the session is absent, malformed (no `adminUser` object), or
carries a username other than the configured admin `"ivan"`, `requireAdmin`
rejects with the identical `401` response, leaves the state untouched, and
never invokes the gated handler (the first three equations hold for every
handler `h`); in particular an unauthenticated `DELETE /api/exhibitions/:id`
leaves the exhibition record present. -/
theorem requireAdmin_uniform_reject
    (h : ServerState → ServerState × Response × List String) (st : ServerState)
    (b : Bool) (u : String) (hu : u ≠ "ivan") (i : Nat) (bucket : String)
    (rok : Bool) (ex : Exhibition) (hex : getExhibition i st = some ex) :
    requireAdmin none h st = (st, authErrorResponse, []) ∧
    requireAdmin (some { isAdmin := b, adminUser := none }) h st =
      (st, authErrorResponse, []) ∧
    requireAdmin (some { isAdmin := b, adminUser := some { username := u } }) h st =
      (st, authErrorResponse, []) ∧
    getExhibition i
      (requireAdmin none (deleteExhibitionRoute bucket rok i) st).1 = some ex := by
  refine ⟨rfl, ?_, ?_, hex⟩
  · simp [requireAdmin, isAuthorized]
  · simp [requireAdmin, isAuthorized, hu]

/-- C2 witness: all three rejection shapes at a concrete state holding
exhibition 1, with username `"bob"` in the wrong-user case. -/
theorem requireAdmin_uniform_reject_witness :
    ("bob" ≠ "ivan") ∧
    getExhibition 1 stExh1 = some exh1 ∧
    requireAdmin none (deleteExhibitionRoute "b" true 1) stExh1 =
      (stExh1, authErrorResponse, []) ∧
    requireAdmin (some { isAdmin := true, adminUser := some { username := "bob" } })
      (deleteExhibitionRoute "b" true 1) stExh1 =
      (stExh1, authErrorResponse, []) := by
  have h := requireAdmin_uniform_reject (deleteExhibitionRoute "b" true 1) stExh1
    true "bob" (by decide) 1 "b" true exh1 (by decide)
  exact ⟨by decide, by decide, h.1, h.2.2.1⟩

/-- C7: resubmitting the same full reorder mapping is idempotent on the
stored collection, for artworks and for exhibitions. -/
theorem reorder_idempotent (σA σE : List (Nat × Int)) (lA : List Artwork)
    (lE : List Exhibition) :
    reorderArtworks σA (reorderArtworks σA lA) = reorderArtworks σA lA ∧
    reorderExhibitions σE (reorderExhibitions σE lE) = reorderExhibitions σE lE :=
  ⟨reorderG_idem (fun a : Artwork => a.id)
      (fun (a : Artwork) (o : Int) => { a with order := o })
      (fun _ _ => rfl) (fun _ _ _ => rfl) σA lA,
    reorderG_idem (fun e : Exhibition => e.id)
      (fun (e : Exhibition) (o : Int) => { e with order := o })
      (fun _ _ => rfl) (fun _ _ _ => rfl) σE lE⟩

/-- C5 counterexample: a concrete 4-file batch on a state holding artwork 1
is rejected by the multer stage with the 500 upstream error — not the
HTTP 400 validation error the claim states — because the in-handler
`files.length > 3` check sits behind `upload.array("images", 3)` and is
unreachable. -/
theorem additionalImages_overlarge_not_400 :
    (additionalImagesPipeline 1 [some "u1", some "u2", some "u3", some "u4"]
        stArt1).2 = { status := 500, body := "Unexpected field" } ∧
    (additionalImagesPipeline 1 [some "u1", some "u2", some "u3", some "u4"]
        stArt1).2.status ≠ 400 := by
  constructor
  · decide
  · decide

/-- C5 amended: a batch of 4 or more files is rejected before the handler
runs, with the 500 `"Unexpected field"` upstream error of the multer
stage (not a 400 validation error), and the state — in particular the
supplementary-image list of the target artwork — is unchanged. -/
theorem additionalImages_overlarge_batch (i : Nat)
    (ur : List (Option String)) (st : ServerState) (h : 4 ≤ ur.length) :
    additionalImagesPipeline i ur st =
      (st, { status := 500, body := "Unexpected field" }) := by
  have h3 : ur.length > 3 := by omega
  simp [additionalImagesPipeline, uploadArrayImages3, h3]

/-- C5 amended witness: a concrete 4-file batch on a state holding
artwork 1. -/
theorem additionalImages_overlarge_batch_witness :
    4 ≤ ([some "u1", some "u2", some "u3", some "u4"] :
        List (Option String)).length ∧
    additionalImagesPipeline 1 [some "u1", some "u2", some "u3", some "u4"]
        stArt1 =
      (stArt1, { status := 500, body := "Unexpected field" }) :=
  ⟨by decide, additionalImages_overlarge_batch 1 _ _ (by decide)⟩

/-- C4 counterexample: with no exhibition stored at id 1, the delete route
answers 200 success, not a 404 not-found as the claim states. -/
theorem deleteExhibition_absent_not_404 :
    getExhibition 1 stEmpty = none ∧
    (deleteExhibitionRoute "b" true 1 stEmpty).2.1 =
      { status := 200, body := "success" } :=
  ⟨rfl, rfl⟩

/-- C4 amended: for an exhibition id not present in storage, the delete
route issues no blob-deletion attempt, leaves the state unchanged, and
returns success — it does not report not-found. -/
theorem deleteExhibition_absent_success (bucket : String) (rok : Bool)
    (i : Nat) (st : ServerState) (h : getExhibition i st = none) :
    deleteExhibitionRoute bucket rok i st =
      (st, { status := 200, body := "success" }, []) := by
  have h' : st.exhibitions.find? (fun e => e.id == i) = none := h
  have hfilter : st.exhibitions.filter (fun e => e.id ≠ i) = st.exhibitions :=
    filter_ne_of_find?_none st.exhibitions i h
  simp only [deleteExhibitionRoute, getExhibition, h', hfilter]
  rfl

/-- C4 amended witness: the empty store at id 1. -/
theorem deleteExhibition_absent_success_witness :
    getExhibition 1 stEmpty = none ∧
    deleteExhibitionRoute "b" false 1 stEmpty =
      (stEmpty, { status := 200, body := "success" }, []) :=
  ⟨by decide, deleteExhibition_absent_success "b" false 1 stEmpty (by decide)⟩

/-- C8: on create, an omitted or blank category is stored and returned as
"Autres", while a non-blank category is stored unchanged; the appended row
is the returned record. -/
theorem createArtwork_category (ins : InsertArtwork) (newId : Nat)
    (st : ServerState) :
    ((ins.category = none ∨ ins.category = some "") →
      (createArtwork ins newId st).2.category = some "Autres") ∧
    (∀ c, ins.category = some c → c ≠ "" →
      (createArtwork ins newId st).2.category = some c) ∧
    (createArtwork ins newId st).1.artworks =
      st.artworks ++ [(createArtwork ins newId st).2] := by
  refine ⟨?_, ?_, rfl⟩
  · rintro (h | h) <;> simp [createArtwork, jsOrString, h]
  · intro c hc hne
    simp [createArtwork, jsOrString, hc, hne]

/-- C8 witness: blank category at a concrete insert payload. -/
theorem createArtwork_category_witness :
    (insBlankCat.category = none ∨ insBlankCat.category = some "") ∧
    (createArtwork insBlankCat 7 stEmpty).2.category = some "Autres" :=
  ⟨Or.inr rfl, (createArtwork_category insBlankCat 7 stEmpty).1 (Or.inr rfl)⟩

/-- C6: a 1-to-3-file batch on an existing artwork appends, on full upload
success, exactly the new URLs at the end of the existing supplementary
list, in submission order; on any individual upload failure the call
answers 500 and the state is unchanged. -/
theorem additionalImages_batch_spec (i : Nat) (ur : List (Option String))
    (st : ServerState) (a : Artwork) (ha : getArtwork i st = some a)
    (h1 : 1 ≤ ur.length) (h3 : ur.length ≤ 3) :
    (∀ urls, uploadAll ur = some urls →
      (additionalImagesRoute i ur st).2 = { status := 200, body := "success" } ∧
      getArtwork i (additionalImagesRoute i ur st).1 =
        some { a with
               additionalImages := some (a.additionalImages.getD [] ++ urls) }) ∧
    (uploadAll ur = none →
      additionalImagesRoute i ur st =
        (st, { status := 500, body := "Failed to upload image" })) := by
  have h0 : ¬ ur.length = 0 := by omega
  have hgt : ¬ ur.length > 3 := by omega
  constructor
  · intro urls hup
    constructor
    · simp [additionalImagesRoute, h0, hgt, ha, hup]
    · simp only [additionalImagesRoute, if_neg h0, if_neg hgt, ha, hup]
      exact find?_map_update st.artworks i a
        (fun x => { x with
                    additionalImages := some (a.additionalImages.getD [] ++ urls) })
        (fun _ => rfl) ha
  · intro hup
    simp [additionalImagesRoute, h0, hgt, ha, hup]

/-- C6 witness: a 2-file batch on `art1` (no existing supplementary images)
appends exactly the two URLs in order. -/
theorem additionalImages_batch_spec_witness :
    getArtwork 1 stArt1 = some art1 ∧
    1 ≤ ([some "u1", some "u2"] : List (Option String)).length ∧
    ([some "u1", some "u2"] : List (Option String)).length ≤ 3 ∧
    uploadAll [some "u1", some "u2"] = some ["u1", "u2"] ∧
    (additionalImagesRoute 1 [some "u1", some "u2"] stArt1).2 =
      { status := 200, body := "success" } ∧
    getArtwork 1 (additionalImagesRoute 1 [some "u1", some "u2"] stArt1).1 =
      some { art1 with
             additionalImages := some (art1.additionalImages.getD [] ++ ["u1", "u2"]) } := by
  have h := (additionalImages_batch_spec 1 [some "u1", some "u2"] stArt1 art1
    (by decide) (by decide) (by decide)).1 ["u1", "u2"] (by decide)
  exact ⟨by decide, by decide, by decide, by decide, h.1, h.2⟩

/-- A sample featured work with id 1. -/
def fw1 : FeaturedWork :=
  { id := 1, imageUrl := "u", title := "t", description := none,
    year := none, technique := none }

/-- A state whose featured-works setting holds `fw1`, with the matching
order list. -/
def stFW : ServerState :=
  { artworks := [], exhibitions := [], featuredWorks := [fw1],
    featuredWorksOrder := [1], bucket := [] }

/-- C9 counterexample: the invariant "every featured-work id appears in the
order list" holds before but fails after `updateFeaturedWork` with a patch
whose `id` field rewrites the id of the record to one absent from the order
list — so the claim that update changes neither id set is false. -/
theorem fwInvariant_update_broken :
    fwInvariant stFW ∧
    ¬ fwInvariant (updateFeaturedWork 1 { id := some 2 } stFW) := by
  constructor
  · decide
  · decide

/-- C9 amended: the invariant is preserved by `addFeaturedWork` and
`deleteFeaturedWork` unconditionally, and by `updateFeaturedWork` whenever
the patch does not move the id of the record (its `id` field is absent or equals
the looked-up id). -/
theorem fwInvariant_preserved (st : ServerState) (hinv : fwInvariant st)
    (w : FeaturedWork) (i : Nat) (p : FeaturedWorkPatch) :
    fwInvariant (addFeaturedWork w st) ∧
    fwInvariant (deleteFeaturedWork i st) ∧
    ((p.id = none ∨ p.id = some i) → fwInvariant (updateFeaturedWork i p st)) := by
  refine ⟨?_, ?_, ?_⟩
  · intro x hx
    simp only [addFeaturedWork] at hx ⊢
    rcases List.mem_append.mp hx with h | h
    · by_cases hc : st.featuredWorksOrder.contains w.id
      · rw [if_pos hc]
        exact hinv x h
      · rw [if_neg hc]
        exact List.mem_append_left _ (hinv x h)
    · simp only [List.mem_singleton] at h
      by_cases hc : st.featuredWorksOrder.contains w.id
      · rw [if_pos hc, h]
        exact List.elem_iff.mp hc
      · rw [if_neg hc, h]
        exact List.mem_append_right _ (List.mem_singleton.mpr rfl)
  · intro x hx
    simp only [deleteFeaturedWork] at hx ⊢
    have hxm := List.of_mem_filter hx
    have hxl := List.mem_of_mem_filter hx
    simp only [decide_eq_true_eq] at hxm
    exact List.mem_filter.mpr ⟨hinv x hxl, by simp [hxm]⟩
  · intro hp x hx
    simp only [updateFeaturedWork] at hx ⊢
    rcases mem_updateFirstFW i p st.featuredWorks x hx with h | ⟨w₀, hw₀, hid, hxeq⟩
    · exact hinv x h
    · have hxid : x.id = w₀.id := by
        rcases hp with hp | hp <;>
          simp [hxeq, applyPatch, hp, hid]
      rw [hxid]
      exact hinv w₀ hw₀

/-- A sample featured work with id 9, used as the added record. -/
def fw9 : FeaturedWork :=
  { id := 9, imageUrl := "u9", title := "t9", description := none,
    year := none, technique := none }

/-- A patch that retitles without touching the id. -/
def patchTitleOnly : FeaturedWorkPatch :=
  { id := none, title := some "t2" }

/-- C9 amended witness: adding, deleting and id-preserving updating at a
concrete state keeps the invariant. -/
theorem fwInvariant_preserved_witness :
    fwInvariant stFW ∧
    fwInvariant (addFeaturedWork fw9 stFW) ∧
    fwInvariant (deleteFeaturedWork 1 stFW) ∧
    ((patchTitleOnly.id = none ∨ patchTitleOnly.id = some 1) →
      fwInvariant (updateFeaturedWork 1 patchTitleOnly stFW)) := by
  have h := fwInvariant_preserved stFW (by decide) fw9 1 patchTitleOnly
  exact ⟨by decide, h.1, h.2.1, fun _ => h.2.2 (Or.inl rfl)⟩

/-- C10: a URL that does not carry the public-URL marker of the managed bucket
triggers no removal call: `deleteSupabasePublicFile` is a no-op on it, and
artwork deletion, exhibition deletion and gallery garbage-collection issue
no blob-deletion attempt and leave the bucket unchanged when every URL of
the affected record is outside the managed store. -/
theorem no_delete_outside_managed_bucket (bucket : String) (rok : Bool)
    (st : ServerState) :
    (∀ url, extractSupabasePathFromPublicUrl url bucket = none →
      deleteSupabasePublicFile bucket url = []) ∧
    (∀ i a, getArtwork i st = some a →
      extractSupabasePathFromPublicUrl a.imageUrl bucket = none →
      (deleteArtworkRoute bucket rok i st).2.2 = [] ∧
      (deleteArtworkRoute bucket rok i st).1.bucket = st.bucket) ∧
    (∀ i ex, getExhibition i st = some ex →
      extractSupabasePathFromPublicUrl ex.imageUrl bucket = none →
      (∀ gi ∈ ex.galleryImages.getD [],
        extractSupabasePathFromPublicUrl gi.url bucket = none) →
      (deleteExhibitionRoute bucket rok i st).2.2 = [] ∧
      (deleteExhibitionRoute bucket rok i st).1.bucket = st.bucket) ∧
    (∀ i ex g, getExhibition i st = some ex →
      (∀ gi ∈ ex.galleryImages.getD [],
        extractSupabasePathFromPublicUrl gi.url bucket = none) →
      (updateGalleryRoute bucket rok i g st).2.2 = [] ∧
      (updateGalleryRoute bucket rok i g st).1.bucket = st.bucket) := by
  have hnoop : ∀ url, extractSupabasePathFromPublicUrl url bucket = none →
      deleteSupabasePublicFile bucket url = [] := by
    intro url h
    rw [deleteSupabasePublicFile, h]
  refine ⟨hnoop, ?_, ?_, ?_⟩
  · intro i a ha hext
    have hatt : (if strStartsWith a.imageUrl "http" then
        deleteSupabasePublicFile bucket a.imageUrl else []) = [] := by
      split
      · exact hnoop _ hext
      · rfl
    constructor
    · simp [deleteArtworkRoute, ha, hatt]
    · simp [deleteArtworkRoute, ha, hatt, applyRemoves]
  · intro i ex hex hext hgal
    have hatt1 : (if strStartsWith ex.imageUrl "http" then
        deleteSupabasePublicFile bucket ex.imageUrl else []) = [] := by
      split
      · exact hnoop _ hext
      · rfl
    have hatt2 : (ex.galleryImages.getD []).foldl
        (fun acc gi => acc ++ (if strStartsWith gi.url "http" then
          deleteSupabasePublicFile bucket gi.url else [])) [] = [] := by
      apply foldl_append_of_all_nil
      intro gi hgi
      split
      · exact hnoop _ (hgal gi hgi)
      · rfl
    constructor
    · simp [deleteExhibitionRoute, hex, hatt1, hatt2]
    · simp [deleteExhibitionRoute, hex, hatt1, hatt2, applyRemoves]
  · intro i ex g hex hgal
    have hatt : ((insertionDedup (((ex.galleryImages.getD []).map
          (fun gl => gl.url)).filter (fun u => u ≠ ""))).filter
        (fun u => ¬ ((g.map (fun gl => gl.url)).filter
          (fun v => v ≠ "")).contains u)).foldl
        (fun acc u => acc ++ (if strStartsWith u "http" then
          deleteSupabasePublicFile bucket u else [])) [] = [] := by
      apply foldl_append_of_all_nil
      intro u hu
      have hu1 : u ∈ insertionDedup (((ex.galleryImages.getD []).map
          (fun gl => gl.url)).filter (fun v => v ≠ "")) :=
        List.mem_of_mem_filter hu
      have hu2 : u ∈ ((ex.galleryImages.getD []).map
          (fun gl => gl.url)).filter (fun v => v ≠ "") :=
        mem_insertionDedup _ u hu1
      have hu3 : u ∈ (ex.galleryImages.getD []).map (fun gl => gl.url) :=
        List.mem_of_mem_filter hu2
      rcases List.mem_map.mp hu3 with ⟨gi, hgi, rfl⟩
      split
      · exact hnoop _ (hgal gi hgi)
      · rfl
    constructor
    · simp only [updateGalleryRoute, hex]
      exact hatt
    · simp only [updateGalleryRoute, hex]
      rw [hatt]
      rfl

/-- An artwork whose image URL is outside the managed bucket. -/
def artExt : Artwork :=
  { id := 1, title := "t", imageUrl := "https://ext.example.com/pic.jpg",
    dimensions := "d", technique := "te", year := "2024", description := "de",
    category := some "Autres", additionalImages := some [],
    isVisible := some true, showInSlider := some true, order := 0 }

/-- An exhibition whose image and gallery URLs are outside the managed
bucket. -/
def exhExt : Exhibition :=
  { id := 1, title := "t", location := "l", year := "2024",
    imageUrl := "https://ext.example.com/e.jpg", description := "d",
    theme := none,
    galleryImages := some [{ url := "https://ext.example.com/g.jpg", caption := "c" }],
    videoUrl := none, order := 0 }

/-- A state holding `artExt` and `exhExt` and one unrelated blob. -/
def stExt : ServerState :=
  { artworks := [artExt], exhibitions := [exhExt], featuredWorks := [],
    featuredWorksOrder := [], bucket := ["images/keep.jpg"] }

/-- C10 witness: at external URLs in bucket "b", the no-op of the helper,
artwork deletion, exhibition deletion and gallery replacement by the empty
list all log no attempts and keep the bucket intact. -/
theorem no_delete_outside_managed_bucket_witness :
    extractSupabasePathFromPublicUrl "https://ext.example.com/pic.jpg" "b" = none ∧
    deleteSupabasePublicFile "b" "https://ext.example.com/pic.jpg" = [] ∧
    getArtwork 1 stExt = some artExt ∧
    ((deleteArtworkRoute "b" true 1 stExt).2.2 = [] ∧
      (deleteArtworkRoute "b" true 1 stExt).1.bucket = stExt.bucket) ∧
    ((deleteExhibitionRoute "b" true 1 stExt).2.2 = [] ∧
      (deleteExhibitionRoute "b" true 1 stExt).1.bucket = stExt.bucket) ∧
    ((updateGalleryRoute "b" true 1 [] stExt).2.2 = [] ∧
      (updateGalleryRoute "b" true 1 [] stExt).1.bucket = stExt.bucket) := by
  have h := no_delete_outside_managed_bucket "b" true stExt
  refine ⟨by decide, h.1 _ (by decide), by decide, ?_, ?_, ?_⟩
  · exact h.2.1 1 artExt (by decide) (by decide)
  · exact h.2.2.1 1 exhExt (by decide) (by decide) (by decide)
  · exact h.2.2.2 1 exhExt [] (by decide) (by decide)

/-- C1: a reorder submission that covers every stored record and assigns
distinct order values makes the subsequent read-back strictly ascending in
the stored `order`, with every returned row carrying exactly its submitted
`(id, order)` pair — hence in the submitted relative sequence — and with
the returned ids a permutation of the (visible, for artworks) stored ids;
this holds for `reorderArtworks`/`getArtworks` and for
`reorderExhibitions`/`getExhibitions`. -/
theorem reorder_full_cover_read_back
    (st : ServerState) (σA σE : List (Nat × Int))
    (hidsA : (st.artworks.map (fun a => a.id)).Nodup)
    (hcoverA : ∀ a ∈ st.artworks, a.id ∈ σA.map Prod.fst)
    (hσidA : (σA.map Prod.fst).Nodup)
    (hσordA : (σA.map Prod.snd).Nodup)
    (hidsE : (st.exhibitions.map (fun e => e.id)).Nodup)
    (hcoverE : ∀ e ∈ st.exhibitions, e.id ∈ σE.map Prod.fst)
    (hσidE : (σE.map Prod.fst).Nodup)
    (hσordE : (σE.map Prod.snd).Nodup) :
    ((getArtworks { st with artworks := reorderArtworks σA st.artworks }).Pairwise
        (fun a b => a.order < b.order) ∧
      (∀ a ∈ getArtworks { st with artworks := reorderArtworks σA st.artworks },
        (a.id, a.order) ∈ σA) ∧
      ((getArtworks { st with artworks := reorderArtworks σA st.artworks }).map
          (fun a => a.id)).Perm
        ((st.artworks.filter (fun a => a.isVisible == some true)).map
          (fun a => a.id))) ∧
    ((getExhibitions
        { st with exhibitions := reorderExhibitions σE st.exhibitions }).Pairwise
        (fun a b => a.order < b.order) ∧
      (∀ e ∈ getExhibitions
          { st with exhibitions := reorderExhibitions σE st.exhibitions },
        (e.id, e.order) ∈ σE) ∧
      ((getExhibitions
          { st with exhibitions := reorderExhibitions σE st.exhibitions }).map
          (fun e => e.id)).Perm (st.exhibitions.map (fun e => e.id))) := by
  have hA := reorderG_sort_spec (fun a : Artwork => a.id)
      (fun (a : Artwork) (o : Int) => { a with order := o }) (fun _ _ => rfl)
      (fun a => a.order) (fun _ _ => rfl)
      (fun a => a.isVisible == some true) (fun _ _ => rfl)
      σA st.artworks hidsA hcoverA hσordA
  have hE := reorderG_sort_spec (fun e : Exhibition => e.id)
      (fun (e : Exhibition) (o : Int) => { e with order := o }) (fun _ _ => rfl)
      (fun e => e.order) (fun _ _ => rfl)
      (fun _ => true) (fun _ _ => rfl)
      σE st.exhibitions hidsE hcoverE hσordE
  rw [List.filter_true, List.filter_true] at hE
  exact ⟨hA, hE⟩

/-- First sample artwork of the reorder witness: id 1, order 5. -/
def aW1 : Artwork :=
  { id := 1, title := "t1", imageUrl := "https://x/1.jpg", dimensions := "d",
    technique := "te", year := "2024", description := "de",
    category := some "Autres", additionalImages := some [],
    isVisible := some true, showInSlider := some true, order := 5 }

/-- Second sample artwork of the reorder witness: id 2, order 0. -/
def aW2 : Artwork :=
  { id := 2, title := "t2", imageUrl := "https://x/2.jpg", dimensions := "d",
    technique := "te", year := "2024", description := "de",
    category := some "Autres", additionalImages := some [],
    isVisible := some true, showInSlider := some true, order := 0 }

/-- Sample exhibition of the reorder witness: id 1, order 3. -/
def eW1 : Exhibition :=
  { id := 1, title := "t", location := "l", year := "2024",
    imageUrl := "https://x/e.jpg", description := "d", theme := none,
    galleryImages := some [], videoUrl := none, order := 3 }

/-- The state reordered in the C1 witness. -/
def stC1 : ServerState :=
  { artworks := [aW1, aW2], exhibitions := [eW1], featuredWorks := [],
    featuredWorksOrder := [], bucket := [] }

/-- The full artwork reorder submission of the C1 witness. -/
def sAW : List (Nat × Int) := [(1, 10), (2, 4)]

/-- The full exhibition reorder submission of the C1 witness. -/
def sEW : List (Nat × Int) := [(1, 0)]

/-- C1 witness: the concrete two-artwork, one-exhibition reorder. -/
theorem reorder_full_cover_read_back_witness :
    ((stC1.artworks.map (fun a => a.id)).Nodup ∧
      (∀ a ∈ stC1.artworks, a.id ∈ sAW.map Prod.fst) ∧
      (sAW.map Prod.fst).Nodup ∧ (sAW.map Prod.snd).Nodup ∧
      (stC1.exhibitions.map (fun e => e.id)).Nodup ∧
      (∀ e ∈ stC1.exhibitions, e.id ∈ sEW.map Prod.fst) ∧
      (sEW.map Prod.fst).Nodup ∧ (sEW.map Prod.snd).Nodup) ∧
    (((getArtworks { stC1 with artworks := reorderArtworks sAW stC1.artworks }).Pairwise
        (fun a b => a.order < b.order) ∧
      (∀ a ∈ getArtworks { stC1 with artworks := reorderArtworks sAW stC1.artworks },
        (a.id, a.order) ∈ sAW) ∧
      ((getArtworks { stC1 with artworks := reorderArtworks sAW stC1.artworks }).map
          (fun a => a.id)).Perm
        ((stC1.artworks.filter (fun a => a.isVisible == some true)).map
          (fun a => a.id))) ∧
    ((getExhibitions
        { stC1 with exhibitions := reorderExhibitions sEW stC1.exhibitions }).Pairwise
        (fun a b => a.order < b.order) ∧
      (∀ e ∈ getExhibitions
          { stC1 with exhibitions := reorderExhibitions sEW stC1.exhibitions },
        (e.id, e.order) ∈ sEW) ∧
      ((getExhibitions
          { stC1 with exhibitions := reorderExhibitions sEW stC1.exhibitions }).map
          (fun e => e.id)).Perm (stC1.exhibitions.map (fun e => e.id)))) :=
  ⟨⟨by decide, by decide, by decide, by decide, by decide, by decide,
    by decide, by decide⟩,
    reorder_full_cover_read_back stC1 sAW sEW (by decide) (by decide)
      (by decide) (by decide) (by decide) (by decide) (by decide) (by decide)⟩

end Ivan
